import Mathlib

set_option maxRecDepth 8192

/-!
Verification development for the tool-use orchestration loop of the
AnthropicTools repository (`responseService.py`, `Tools.py`, `db.py`,
`api.py`).

The embedding is shallow:
  * JSON-serialized values (tool inputs, tool results) are carried as the
    `String` that `json.dumps` would produce; a tool handler is a function
    `String → Except String String` where `.ok r` is the serialized result
    and `.error e` models a raised exception with message `e`.
  * The remote model endpoint (`anthropic_service.create_message`) is an
    oracle: a list of `ModelResponse` values consumed one per call.
  * The sqlite message table of one conversation is a chronologically
    ordered `List DBRow`; `add_message` is an append.
All definitions below are translated from the Python source; line numbers
in doc comments refer to the source files.
-/

/-! ## String utilities (substring matching, as Python `in` / `str.lower`) -/

/-- Lowercase a string character-wise, as Python `str.lower()` does for the
ASCII strings occurring in this program. -/

def lowerStr (s : String) : String :=
  String.mk (s.toList.map Char.toLower)

/-- `startsWithL pat s`: the char list `s` begins with `pat`. -/

def startsWithL : List Char → List Char → Bool
  | [], _ => true
  | _ :: _, [] => false
  | a :: as, b :: bs => a == b && startsWithL as bs

/-- `isSubstr pat s`: `pat` occurs contiguously inside `s`
(Python's `pat in s` on strings). -/

def isSubstr (pat : List Char) : List Char → Bool
  | [] => startsWithL pat []
  | c :: rest => startsWithL pat (c :: rest) || isSubstr pat rest

/-- Python `pat in s` for strings. -/

def strContains (s pat : String) : Bool :=
  isSubstr pat.toList s.toList

/-! ## Data model

`ContentBlock` mirrors the Anthropic content blocks the source reads and
writes: text blocks, tool-use requests, and tool results
(`responseService.py` lines 170-175, 205, 246-255). -/

inductive ContentBlock where
  | text (t : String)
  | toolUse (id name input : String)
  | toolResult (tool_use_id content : String)
deriving Repr, DecidableEq

/-- A message's content is either a plain string or a block list, matching
the two shapes appended in `_handle_tool_use`. -/

inductive MsgContent where
  | str (s : String)
  | blocks (bs : List ContentBlock)
deriving Repr, DecidableEq, Inhabited

/-- One entry of the `messages` array sent to the model. -/

structure Message where
  role : String
  content : MsgContent
deriving Repr, DecidableEq, Inhabited

/-- A model endpoint response: stop reason plus content blocks
(spec §3 `ModelResponse`). -/

structure ModelResponse where
  stop_reason : String
  content : List ContentBlock
deriving Repr, DecidableEq, Inhabited

/-- The fields of a `tool_use` block, as read at
`responseService.py` lines 211-212. -/

structure ToolUseBlock where
  id : String
  name : String
  input : String
deriving Repr, DecidableEq, Inhabited

/-- One row of the `tool_calls` audit table (`db.py` `add_tool_call`). -/

structure AuditRecord where
  conversation_id : Nat
  message_id : Nat
  tool_name : String
  parameters : String
  result : String
deriving Repr, DecidableEq

/-- One row of the `messages` table for a single conversation, in
timestamp order. -/

structure DBRow where
  sender : String
  content : String
deriving Repr, DecidableEq

/-- A history message as returned by `get_messages_by_conversation_id`. -/

structure HistMsg where
  role : String
  content : String
deriving Repr, DecidableEq

/-- One speakable chunk (`responseService.py` line 175). -/

structure Chunk where
  text : String
  speakable : Bool
deriving Repr, DecidableEq

/-- A tool handler registry: name → handler
(`TOOL_HANDLERS`, `responseService.py` lines 31-36). -/

def Handlers := List (String × (String → Except String String))

/-! ## Final response processing (`responseService.py` lines 166-175) -/

/-- The texts of all `text` content blocks, in order. -/

def extractTexts : List ContentBlock → List String
  | [] => []
  | .text t :: rest => t :: extractTexts rest
  | .toolUse _ _ _ :: rest => extractTexts rest
  | .toolResult _ _ :: rest => extractTexts rest

/-- The accumulation loop of `generate_full_response` lines 166-175:
fold over the content blocks, appending each text block's text to
`full_response` and one speakable chunk per text block. -/

def processFinalAux (acc : String × List Chunk) :
    List ContentBlock → String × List Chunk
  | [] => acc
  | .text t :: rest =>
      processFinalAux (acc.1 ++ t, acc.2 ++ [⟨t, true⟩]) rest
  | .toolUse _ _ _ :: rest => processFinalAux acc rest
  | .toolResult _ _ :: rest => processFinalAux acc rest

/-- `(full_response, speakable_chunks)` computed from the final response's
content blocks. -/

def processFinal (content : List ContentBlock) : String × List Chunk :=
  processFinalAux ("", []) content

/-! ## Orchestration loop (`ResponseService._handle_tool_use`, lines 186-334)

The remote endpoint is an oracle list of responses, consumed one per
`create_message` call. Each loop iteration that dispatches a tool consumes
exactly one oracle entry; when the oracle is exhausted the run is cut off
(the Python loop would keep calling the endpoint). -/

/-- `json.dumps({"error": msg})` for a message without escapes. -/

def jsonError (msg : String) : String :=
  "\x7b\"error\": \"" ++ msg ++ "\"\x7d"

/-- The assistant-turn message carrying the model's raw content blocks
(`messages.append({"role": "assistant", "content": current_response.content})`). -/

def assistantBlocksMsg (content : List ContentBlock) : Message :=
  ⟨"assistant", .blocks content⟩

/-- The user-turn message carrying one `tool_result` block. -/

def toolResultMsg (tool_use_id content : String) : Message :=
  ⟨"user", .blocks [.toolResult tool_use_id content]⟩

/-- A plain user text message. -/

def userTextMsg (s : String) : Message :=
  ⟨"user", .str s⟩

/-- `next((block for block in content if block.type == "tool_use"), None)`. -/

def firstToolUse : List ContentBlock → Option ToolUseBlock
  | [] => none
  | .toolUse i n inp :: _ => some ⟨i, n, inp⟩
  | .text _ :: rest => firstToolUse rest
  | .toolResult _ _ :: rest => firstToolUse rest

/-- Synthetic context message after a successful tool call (lines 260-266). -/

def successCtx (tool_name tool_params_json tool_result_json : String) : String :=
  "[CONTEXT: Tool interaction occurred]\nThe assistant used the " ++ tool_name ++
  " tool with parameters: " ++ tool_params_json ++ "\nThe tool returned: " ++
  tool_result_json ++
  "\nPlease continue with your response based on this tool result."

/-- Synthetic context message after a handler exception (lines 293-299). -/

def errorCtx (tool_name error_message : String) : String :=
  "[CONTEXT: Tool error occurred]\nThe assistant tried to use the " ++ tool_name ++
  " tool but it resulted in an error: " ++ error_message ++
  "\nPlease acknowledge this error and continue with an alternative approach if possible."

/-- Synthetic context message after an unknown tool request (lines 323-329). -/

def unknownCtx (tool_name : String) : String :=
  "[CONTEXT: Unknown tool error]\nThe assistant tried to use a tool called \x27" ++
  tool_name ++
  "\x27 but this tool does not exist.\nPlease acknowledge this and continue with an alternative approach using one of the available tools."

/-- What one dispatch round produces: the two messages appended to the
persistent message list, the extra enhanced-context message (sent to the
endpoint but not kept), and the audit records written. -/

structure DispatchOut where
  appended : List Message
  ctxMsg : Message
  auditAdded : List AuditRecord
deriving Repr, DecidableEq

/-- One dispatch round, lines 221-332: look up the handler for the first
tool-use block; on success append the serialized result as a `tool_result`
and record an audit row; on a raised exception or an unknown name append a
`json.dumps({"error": ...})` payload instead (no audit row is written on
either error path). -/

def dispatch (handlers : Handlers) (cid umid : Nat) (tu : ToolUseBlock)
    (respContent : List ContentBlock) : DispatchOut :=
  match List.lookup tu.name handlers with
  | some h =>
    match h tu.input with
    | .ok tool_result_json =>
        { appended := [assistantBlocksMsg respContent,
                       toolResultMsg tu.id tool_result_json]
          ctxMsg := userTextMsg (successCtx tu.name tu.input tool_result_json)
          auditAdded := [⟨cid, umid, tu.name, tu.input, tool_result_json⟩] }
    | .error e =>
        let em := "Error executing tool " ++ tu.name ++ ": " ++ e
        { appended := [assistantBlocksMsg respContent,
                       toolResultMsg tu.id (jsonError em)]
          ctxMsg := userTextMsg (errorCtx tu.name em)
          auditAdded := [] }
  | none =>
      let em := "Unknown tool requested: " ++ tu.name
      { appended := [assistantBlocksMsg respContent,
                     toolResultMsg tu.id (jsonError em)]
        ctxMsg := userTextMsg (unknownCtx tu.name)
        auditAdded := [] }

/-- Trace record of one executed dispatch round. `base` is the persistent
message list before the round; the list sent to the endpoint for the next
call is `base ++ appended ++ [ctxMsg]` (the `enhanced_messages` copy). -/

structure RoundRecord where
  response : ModelResponse
  tu : ToolUseBlock
  base : List Message
  appended : List Message
  ctxMsg : Message
  auditAdded : List AuditRecord
deriving Repr, DecidableEq, Inhabited

/-- The `enhanced_messages` list this round passes to `create_message`. -/

def RoundRecord.sent (r : RoundRecord) : List Message :=
  r.base ++ r.appended ++ [r.ctxMsg]

/-- Result of running the `while` loop of `_handle_tool_use`. -/

structure LoopResult where
  final : ModelResponse
  messages : List Message
  audit : List AuditRecord
  rounds : List RoundRecord
  remaining : List ModelResponse
deriving Repr, DecidableEq, Inhabited

/-- The `while current_response.stop_reason == "tool_use"` loop,
lines 203-334. Exits when the stop reason is not `tool_use`, breaks when a
`tool_use`-stopped response has no tool-use block, and is cut off when the
oracle runs out of responses. -/

def handleLoop (handlers : Handlers) (cid umid : Nat) :
    List ModelResponse → ModelResponse → List Message → List AuditRecord →
    LoopResult
  | [], resp, msgs, audit => ⟨resp, msgs, audit, [], []⟩
  | next :: rest, resp, msgs, audit =>
    if resp.stop_reason = "tool_use" then
      match firstToolUse resp.content with
      | none => ⟨resp, msgs, audit, [], next :: rest⟩
      | some tu =>
        let d := dispatch handlers cid umid tu resp.content
        let r := handleLoop handlers cid umid rest next (msgs ++ d.appended)
                   (audit ++ d.auditAdded)
        { r with rounds := ⟨resp, tu, msgs, d.appended, d.ctxMsg, d.auditAdded⟩ :: r.rounds }
    else ⟨resp, msgs, audit, [], next :: rest⟩

/-! ## Context heuristic and turn pipeline
(`ResponseService.generate_full_response`, lines 53-184) -/

/-- The fixed referential keyword set, line 120. -/

def referenceWords : List String :=
  ["it", "they", "that", "this", "the book", "he", "she", "when", "where", "who"]

/-- Follow-up detection, lines 117-122: only checked when the loaded full
history (which already includes the just-persisted current user message)
has more than one entry; case-insensitive substring match against the
keyword set. -/

def isFollowUp (fullHistoryLen : Nat) (user_message : String) : Bool :=
  if fullHistoryLen > 1 then
    referenceWords.any (fun w => strContains (lowerStr user_message) w)
  else false

/-- Python `l[-4:]`. -/

def lastN (n : Nat) (l : List α) : List α :=
  l.drop (l.length - n)

/-- One line of the inlined context window, line 131-132: `role: content`,
with a case-sensitive check for `"published"` in the content. -/

def msgLine (m : HistMsg) : String :=
  m.role ++ ": " ++ m.content ++
    (if strContains m.content "published" then " (contains book dates)" else "")

/-- The synthetic follow-up prompt, lines 138-146. -/

def followUpPrompt (context_str user_message : String) : String :=
  "Context from previous conversation (most recent first):\n" ++ context_str ++
  "\n\nCurrent question: " ++ user_message ++
  "\n\nInstructions:\n1. \"When\" refers to publication dates from the context\n2. Use list_books tool if unsure about dates\n3. Never ask for clarification - use tool if needed"

/-- The message list built for the first endpoint call, lines 110-149:
a single user message, either the synthetic follow-up prompt inlining the
last four history messages, or the raw utterance. -/

def buildInitialMessages (full_history : List HistMsg) (user_message : String) :
    List Message :=
  if isFollowUp full_history.length user_message ∧ full_history.length ≥ 2 then
    [userTextMsg (followUpPrompt
      (String.intercalate "\n" ((lastN 4 full_history).map msgLine)) user_message)]
  else
    [userTextMsg user_message]

/-- The "first message" instruction variant of the helper
`_maybe_add_tool_prompt`, lines 397-405. That helper is defined in
`responseService.py` but is invoked from no code path in the repository. -/

def firstMessagePrompt (user_message : String) : String :=
  "[SYSTEM INSTRUCTION - NOT USER MESSAGE]\nProcess this first message: \"" ++
  user_message ++
  "\"\n                \nInstructions:\n1. If this relates to books, authors, or titles, use the list_books tool with title_search or other appropriate tools.\n2. Always search the database before claiming books aren\x27t in the collection.\n3. For Harry Potter related queries, search for \"Harry Potter\" in the book database using list_books with title_search."

/-- `get_messages_by_conversation_id` (`db.py` lines 352-390): the
conversation's rows in timestamp order as `role`/`content` pairs; an empty
table is replaced by one synthetic system marker, never an error. -/

def getMessagesByConversationId (rows : List DBRow) : List HistMsg :=
  match rows with
  | [] => [⟨"system", "This is the start of a new conversation."⟩]
  | _ => rows.map (fun r => ⟨r.sender, r.content⟩)

/-- The metadata-stripped copy of a history message used as the loop's
message base (`_handle_tool_use` lines 190-201). -/

def histToApiMsg (h : HistMsg) : Message :=
  ⟨h.role, .str h.content⟩

/-- Result of one full turn of `generate_full_response`. `initialSent` is
the message list of the first endpoint call; `gatewayCalls` counts endpoint
calls made (one initial call plus one per dispatch round). -/

structure TurnResult where
  fullResponse : String
  speakableChunks : List Chunk
  dbAfter : List DBRow
  audit : List AuditRecord
  initialSent : List Message
  rounds : List RoundRecord
  finalResponse : ModelResponse
  gatewayCalls : Nat
deriving Repr, DecidableEq, Inhabited

/-- `generate_full_response`, lines 53-184: persist the user message,
load the full history, build the (single-message) initial list, call the
endpoint, run the tool loop if the stop reason is `tool_use`, then
concatenate the final response's text blocks and persist the assistant
reply. `none` models only oracle exhaustion on the first call. -/

def generateFullResponse (handlers : Handlers) (cid umid : Nat)
    (gw : List ModelResponse) (db : List DBRow) (user_message : String) :
    Option TurnResult :=
  let db1 := db ++ [⟨"user", user_message⟩]
  let full_history := getMessagesByConversationId db1
  let initial := buildInitialMessages full_history user_message
  match gw with
  | [] => none
  | r0 :: rest =>
    let loopRes : LoopResult :=
      if r0.stop_reason = "tool_use" then
        handleLoop handlers cid umid rest r0 (full_history.map histToApiMsg) []
      else
        ⟨r0, initial, [], [], rest⟩
    let out := processFinal loopRes.final.content
    some {
      fullResponse := out.1
      speakableChunks := out.2
      dbAfter := db1 ++ [⟨"assistant", out.1⟩]
      audit := loopRes.audit
      initialSent := initial
      rounds := loopRes.rounds
      finalResponse := loopRes.final
      gatewayCalls := 1 + loopRes.rounds.length }

/-- The `POST /api/conversations/<id>/messages` endpoint (`api.py`
lines 431-495): after validation it persists the user message itself
(line 464) and then calls `generate_full_response`, which persists the
same message again (responseService.py lines 104-107). -/

def sendMessageEndpoint (handlers : Handlers) (cid umid : Nat)
    (gw : List ModelResponse) (db : List DBRow) (message : String) :
    Option TurnResult :=
  let dbA := db ++ [⟨"user", message⟩]
  generateFullResponse handlers cid umid gw dbA message

/-- Count of persisted rows with a given sender and content. -/

def countRows (db : List DBRow) (sender content : String) : Nat :=
  db.countP (fun r => r.sender == sender && r.content == content)

/-- Count of `tool_result` blocks with a given `tool_use_id` across a
message list. -/

def countToolResultsFor (id : String) (msgs : List Message) : Nat :=
  msgs.countP (fun m =>
    match m.content with
    | .blocks bs => bs.any (fun b =>
        match b with
        | .toolResult tid _ => tid == id
        | _ => false)
    | .str _ => false)

/-- The `tool_use_id`s of all `tool_result` blocks in a message list,
in order. -/

def toolResultIds (msgs : List Message) : List String :=
  msgs.flatMap (fun m =>
    match m.content with
    | .blocks bs => bs.filterMap (fun b =>
        match b with
        | .toolResult tid _ => some tid
        | _ => none)
    | .str _ => [])

/-- Order-preserving subsequence test on message lists (used to formalize
"never reorders or drops"). -/

def msgSubseq : List Message → List Message → Bool
  | [], _ => true
  | _ :: _, [] => false
  | a :: as, b :: bs =>
      if a = b then msgSubseq as bs else msgSubseq (a :: as) bs

/-! ## Concrete fixtures for witnesses and counterexamples -/

/-- A handler that succeeds with a fixed serialized result. -/

def hEcho : String → Except String String := fun _ => .ok "\"ok\""

/-- A handler that raises (`Except.error` models the Python exception). -/

def hBoom : String → Except String String := fun _ => .error "boom"

/-- A two-tool registry fixture. -/

def handlersFix : Handlers := [("echo", hEcho), ("boom", hBoom)]

/-- A terminal response with one text block. -/

def endTurnResp : ModelResponse := ⟨"end_turn", [.text "All done."]⟩

/-- A `tool_use` response carrying two tool-use blocks. -/

def twoToolResp : ModelResponse :=
  ⟨"tool_use", [.toolUse "id1" "echo" "\x7b\x7d", .toolUse "id2" "echo" "\x7b\x7d"]⟩

/-- A `tool_use` response with a single known tool request. -/

def echoToolResp : ModelResponse :=
  ⟨"tool_use", [.toolUse "id1" "echo" "\x7b\x7d"]⟩

/-- A `tool_use`-stopped response containing no tool-use block. -/

def noBlockToolResp : ModelResponse := ⟨"tool_use", [.text "thinking"]⟩

/-- A `tool_use` response requesting a name absent from the registry. -/

def unknownToolResp : ModelResponse :=
  ⟨"tool_use", [.toolUse "idU" "mystery" "\x7b\x7d"]⟩

/-- A `tool_use` response whose handler raises. -/

def boomToolResp : ModelResponse :=
  ⟨"tool_use", [.toolUse "idB" "boom" "\x7b\x7d"]⟩

/-- Two persisted prior messages (one exchange). -/

def dbPriorFix : List DBRow := [⟨"user", "hi"⟩, ⟨"assistant", "greetings"⟩]

/-- Concatenation of a list of strings, in order. -/

def concatList : List String → String
  | [] => ""
  | s :: rest => s ++ concatList rest

/-- The loop result produced inside one turn of `generate_full_response`:
the tool loop runs on the persisted full history iff the first response
stopped for tool use. -/

def turnLoopResult (handlers : Handlers) (cid umid : Nat) (r0 : ModelResponse)
    (rest : List ModelResponse) (db : List DBRow) (u : String) : LoopResult :=
  if r0.stop_reason = "tool_use" then
    handleLoop handlers cid umid rest r0
      ((getMessagesByConversationId (db ++ [⟨"user", u⟩])).map histToApiMsg) []
  else
    ⟨r0, buildInitialMessages (getMessagesByConversationId (db ++ [⟨"user", u⟩])) u,
      [], [], rest⟩

/-- The single round of the two-tool-use run. -/

def roundTwoFix : RoundRecord :=
  (handleLoop handlersFix 0 0 [endTurnResp] twoToolResp [] []).rounds.headI

/-- The turn result of a concrete run that performs one tool round. -/

def tC2Fix : TurnResult :=
  (generateFullResponse handlersFix 1 3 [echoToolResp, endTurnResp] dbPriorFix
    "good morning").getD default

/-- A terminal response mixing text and tool-use blocks. -/

def mixedResp : ModelResponse :=
  ⟨"end_turn", [.text "A", .toolUse "x" "y" "z", .text "B"]⟩

/-- The turn result of a run ending on the mixed response. -/

def tC4Fix : TurnResult :=
  (generateFullResponse handlersFix 1 4 [mixedResp] [] "good morning").getD default

/-- The single round of the raising-handler run. -/

def roundBoomFix : RoundRecord :=
  (handleLoop handlersFix 0 0 [endTurnResp] boomToolResp [] []).rounds.headI

/-- The single round of the unknown-tool run. -/

def roundUnkFix : RoundRecord :=
  (handleLoop handlersFix 0 0 [endTurnResp] unknownToolResp [] []).rounds.headI

/-- The turn result of a run on an empty conversation. -/

def tC7Fix : TurnResult :=
  (generateFullResponse handlersFix 1 5 [endTurnResp] [] "good morning").getD default

/-- The turn result of a keyword-free utterance on a two-message history. -/

def tC8Fix : TurnResult :=
  (generateFullResponse handlersFix 1 6 [endTurnResp] dbPriorFix "good morning").getD
    default

/-- The turn result of a concrete endpoint call on an empty conversation. -/

def tC10Fix : TurnResult :=
  (sendMessageEndpoint handlersFix 1 8 [endTurnResp] [] "good morning").getD default

theorem startsWithL_self_append (p b : List Char) :
    startsWithL p (p ++ b) = true := by
  induction p with
  | nil => rfl
  | cons a as ih => simp [startsWithL, ih]

theorem isSubstr_append_left (p t : List Char) (h : isSubstr p t = true) :
    ∀ a : List Char, isSubstr p (a ++ t) = true := by
  intro a
  induction a with
  | nil => simpa using h
  | cons c cs ih => simp [List.cons_append, isSubstr, ih]

theorem isSubstr_of_middle (a p b : List Char) :
    isSubstr p (a ++ (p ++ b)) = true := by
  apply isSubstr_append_left
  cases hpb : p ++ b with
  | nil => simp [isSubstr, startsWithL_self_append, ← hpb]
  | cons c cs => simp [isSubstr, ← hpb, startsWithL_self_append]

theorem strContains_middle (s₁ n s₂ : String) :
    strContains (s₁ ++ n ++ s₂) n = true := by
  have hdata : (s₁ ++ n ++ s₂).data = s₁.data ++ (n.data ++ s₂.data) := by
    simp [String.data_append]
  simp only [strContains, String.toList, hdata]
  exact isSubstr_of_middle s₁.data n.data s₂.data

/-! ## Helper lemmas about the dispatch round and the loop -/

/-- Every dispatch branch appends exactly the assistant echo followed by one
tool-result message for the handled block's id, and its enhanced-context
message is a plain text message. -/

theorem dispatch_appended_shape (handlers : Handlers) (cid umid : Nat)
    (tu : ToolUseBlock) (ct : List ContentBlock) :
    (∃ c, (dispatch handlers cid umid tu ct).appended =
      [assistantBlocksMsg ct, toolResultMsg tu.id c]) ∧
    (∃ s, (dispatch handlers cid umid tu ct).ctxMsg = userTextMsg s) := by
  cases hl : List.lookup tu.name handlers with
  | none =>
    exact ⟨⟨jsonError ("Unknown tool requested: " ++ tu.name), by simp [dispatch, hl]⟩,
      ⟨unknownCtx tu.name, by simp [dispatch, hl]⟩⟩
  | some h =>
    cases he : h tu.input with
    | ok r =>
      exact ⟨⟨r, by simp [dispatch, hl, he]⟩,
        ⟨successCtx tu.name tu.input r, by simp [dispatch, hl, he]⟩⟩
    | error e =>
      exact ⟨⟨jsonError ("Error executing tool " ++ tu.name ++ ": " ++ e),
          by simp [dispatch, hl, he]⟩,
        ⟨errorCtx tu.name ("Error executing tool " ++ tu.name ++ ": " ++ e),
          by simp [dispatch, hl, he]⟩⟩

/-- Every round in a loop trace was produced by `dispatch` on the first
tool-use block of its response. -/

theorem handleLoop_rounds_spec (handlers : Handlers) (cid umid : Nat) :
    ∀ (gw : List ModelResponse) (resp : ModelResponse) (msgs : List Message)
      (audit : List AuditRecord) (r : RoundRecord),
      r ∈ (handleLoop handlers cid umid gw resp msgs audit).rounds →
      firstToolUse r.response.content = some r.tu ∧
      r.appended = (dispatch handlers cid umid r.tu r.response.content).appended ∧
      r.ctxMsg = (dispatch handlers cid umid r.tu r.response.content).ctxMsg ∧
      r.auditAdded = (dispatch handlers cid umid r.tu r.response.content).auditAdded := by
  intro gw
  induction gw with
  | nil =>
    intro resp msgs audit r hr
    simp only [handleLoop] at hr
    simp at hr
  | cons g rest ih =>
    intro resp msgs audit r hr
    simp only [handleLoop] at hr
    split at hr
    · split at hr
      · simp at hr
      · rename_i hftu
        simp only [List.mem_cons] at hr
        rcases hr with hr | hr
        · subst hr
          exact ⟨hftu, rfl, rfl, rfl⟩
        · exact ih g _ _ r hr
    · simp at hr

/-- Every round's base message list extends the list the loop started
from: earlier messages are never reordered or dropped inside the loop. -/

theorem handleLoop_base_extend (handlers : Handlers) (cid umid : Nat) :
    ∀ (gw : List ModelResponse) (resp : ModelResponse) (msgs : List Message)
      (audit : List AuditRecord) (r : RoundRecord),
      r ∈ (handleLoop handlers cid umid gw resp msgs audit).rounds →
      ∃ tail, r.base = msgs ++ tail := by
  intro gw
  induction gw with
  | nil =>
    intro resp msgs audit r hr
    simp only [handleLoop] at hr
    simp at hr
  | cons g rest ih =>
    intro resp msgs audit r hr
    simp only [handleLoop] at hr
    split at hr
    · split at hr
      · simp at hr
      · simp only [List.mem_cons] at hr
        rcases hr with hr | hr
        · subst hr
          exact ⟨[], by simp⟩
        · rename_i tu hftu
          obtain ⟨tail, htail⟩ := ih g _ _ r hr
          exact ⟨(dispatch handlers cid umid tu resp.content).appended ++ tail,
            by rw [htail, List.append_assoc]⟩
    · simp at hr

/-- Each executed round consumed exactly one endpoint response: the round
count plus the leftover oracle length equals the oracle length. -/

theorem handleLoop_calls_count (handlers : Handlers) (cid umid : Nat) :
    ∀ (gw : List ModelResponse) (resp : ModelResponse) (msgs : List Message)
      (audit : List AuditRecord),
      (handleLoop handlers cid umid gw resp msgs audit).rounds.length +
        (handleLoop handlers cid umid gw resp msgs audit).remaining.length =
      gw.length := by
  intro gw
  induction gw with
  | nil =>
    intro resp msgs audit
    simp [handleLoop]
  | cons g rest ih =>
    intro resp msgs audit
    simp only [handleLoop]
    split
    · split
      · simp
      · rename_i tu hftu
        have h := ih g (msgs ++ (dispatch handlers cid umid tu resp.content).appended)
          (audit ++ (dispatch handlers cid umid tu resp.content).auditAdded)
        simp only [List.length_cons]
        omega
    · simp

/-- If the loop stopped while oracle responses remained, it stopped because
the stop reason was not `tool_use` or because a `tool_use`-stopped response
carried no tool-use block. -/

theorem handleLoop_exit_shape (handlers : Handlers) (cid umid : Nat) :
    ∀ (gw : List ModelResponse) (resp : ModelResponse) (msgs : List Message)
      (audit : List AuditRecord),
      (handleLoop handlers cid umid gw resp msgs audit).remaining ≠ [] →
      (handleLoop handlers cid umid gw resp msgs audit).final.stop_reason ≠ "tool_use" ∨
      firstToolUse (handleLoop handlers cid umid gw resp msgs audit).final.content = none := by
  intro gw
  induction gw with
  | nil =>
    intro resp msgs audit hrem
    simp [handleLoop] at hrem
  | cons g rest ih =>
    intro resp msgs audit hrem
    simp only [handleLoop] at hrem ⊢
    by_cases hstop : resp.stop_reason = "tool_use"
    · simp only [if_pos hstop] at hrem ⊢
      cases hftu : firstToolUse resp.content with
      | none =>
        simp only [hftu] at hrem ⊢
        exact Or.inr trivial
      | some tu =>
        simp only [hftu] at hrem ⊢
        exact ih g _ _ hrem
    · simp only [if_neg hstop] at hrem ⊢
      exact Or.inl hstop

/-- If a string's character data splits around a pattern's data, the
pattern is a substring. -/

theorem strContains_of_split (s pat : String) (a b : List Char)
    (h : s.data = a ++ (pat.data ++ b)) : strContains s pat = true := by
  simp only [strContains, String.toList, h]
  exact isSubstr_of_middle a pat.data b

/-- Every `json.dumps({"error": ...})` payload contains the key `error`. -/

theorem jsonError_contains_error (m : String) :
    strContains (jsonError m) "error" = true := by
  apply strContains_of_split _ _ ("\x7b\"".data)
    (("\": \"" : String).data ++ m.data ++ ("\"\x7d" : String).data)
  have h1 : ("\x7b\"error\": \"" : String).data =
      ("\x7b\"" : String).data ++ (("error" : String).data ++ ("\": \"" : String).data) := by
    decide
  simp [jsonError, String.data_append, h1]

/-- The unknown-tool error payload contains the offending tool name. -/

theorem jsonError_unknown_contains_name (name : String) :
    strContains (jsonError ("Unknown tool requested: " ++ name)) name = true := by
  apply strContains_of_split _ _
    (("\x7b\"error\": \"" : String).data ++ ("Unknown tool requested: " : String).data)
    (("\"\x7d" : String).data)
  simp [jsonError, String.data_append]

theorem processFinalAux_spec (c : List ContentBlock) :
    ∀ acc : String × List Chunk,
      processFinalAux acc c =
        (acc.1 ++ concatList (extractTexts c),
         acc.2 ++ (extractTexts c).map (fun s => ⟨s, true⟩)) := by
  induction c with
  | nil =>
    intro acc
    simp [processFinalAux, extractTexts, concatList]
  | cons b rest ih =>
    intro acc
    cases b with
    | text t =>
      simp only [processFinalAux, extractTexts, concatList, ih, List.map_cons]
      refine Prod.ext ?_ ?_
      · simp [String.append_assoc]
      · simp
    | toolUse i n inp =>
      simp [processFinalAux, extractTexts, ih]
    | toolResult tid tc =>
      simp [processFinalAux, extractTexts, ih]

/-- `full_response` and `speakable_chunks` as computed by the loop of
lines 166-175 equal the in-order concatenation of text blocks and one
speakable chunk per text block. -/

theorem processFinal_spec (c : List ContentBlock) :
    processFinal c =
      (concatList (extractTexts c),
       (extractTexts c).map (fun s => ⟨s, true⟩)) := by
  simp [processFinal, processFinalAux_spec]

/-- The heuristic always produces a single-message list. -/

theorem buildInitialMessages_length (fh : List HistMsg) (u : String) :
    (buildInitialMessages fh u).length = 1 := by
  unfold buildInitialMessages
  split <;> rfl

/-- Characterization of a completed turn: `generate_full_response` returns
a result exactly when the oracle is nonempty, and every field of the result
is determined by `turnLoopResult`. -/

theorem generateFullResponse_some (handlers : Handlers) (cid umid : Nat)
    (gw : List ModelResponse) (db : List DBRow) (u : String) (t : TurnResult)
    (h : generateFullResponse handlers cid umid gw db u = some t) :
    ∃ r0 rest, gw = r0 :: rest ∧
      t = { fullResponse :=
              (processFinal (turnLoopResult handlers cid umid r0 rest db u).final.content).1
            speakableChunks :=
              (processFinal (turnLoopResult handlers cid umid r0 rest db u).final.content).2
            dbAfter := (db ++ [⟨"user", u⟩]) ++
              [⟨"assistant",
                (processFinal (turnLoopResult handlers cid umid r0 rest db u).final.content).1⟩]
            audit := (turnLoopResult handlers cid umid r0 rest db u).audit
            initialSent :=
              buildInitialMessages (getMessagesByConversationId (db ++ [⟨"user", u⟩])) u
            rounds := (turnLoopResult handlers cid umid r0 rest db u).rounds
            finalResponse := (turnLoopResult handlers cid umid r0 rest db u).final
            gatewayCalls :=
              1 + (turnLoopResult handlers cid umid r0 rest db u).rounds.length } := by
  cases gw with
  | nil => simp [generateFullResponse] at h
  | cons r0 rest =>
    refine ⟨r0, rest, rfl, ?_⟩
    simp only [generateFullResponse, Option.some.injEq] at h
    exact h.symm

/-! ## Claims -/

/-- C1, counterexample: the claim says every `ToolUse` block of a response
is answered by exactly one `ToolResult` before the next endpoint call. On a
response carrying two tool-use blocks the loop runs one round and the
second block's id `id2` receives no `ToolResult` anywhere in the run — not
in the persisted messages and not in the list sent to the next call. -/

theorem c1_counterexample :
    ContentBlock.toolUse "id2" "echo" "\x7b\x7d" ∈ twoToolResp.content ∧
    (handleLoop handlersFix 0 0 [endTurnResp] twoToolResp [] []).rounds.length = 1 ∧
    countToolResultsFor "id2"
      (handleLoop handlersFix 0 0 [endTurnResp] twoToolResp [] []).messages = 0 ∧
    countToolResultsFor "id2"
      ((handleLoop handlersFix 0 0 [endTurnResp] twoToolResp [] []).rounds.headI).sent = 0 := by
  decide

/-- C1 (amended): in every dispatch round, the first `ToolUse` block of the
handled response — and only that block — is answered by exactly one
`ToolResult` message whose `tool_use_id` equals that block's id, appended
before the next endpoint call; the extra enhanced-context message is plain
text, not another tool result. -/

theorem c1_first_tool_use_answered_once (handlers : Handlers) (cid umid : Nat)
    (gw : List ModelResponse) (resp : ModelResponse) (msgs : List Message)
    (audit : List AuditRecord) (r : RoundRecord)
    (hr : r ∈ (handleLoop handlers cid umid gw resp msgs audit).rounds) :
    firstToolUse r.response.content = some r.tu ∧
    (∃ c, r.appended = [assistantBlocksMsg r.response.content,
      toolResultMsg r.tu.id c]) ∧
    (∃ s, r.ctxMsg = userTextMsg s) := by
  obtain ⟨h1, h2, h3, _⟩ :=
    handleLoop_rounds_spec handlers cid umid gw resp msgs audit r hr
  obtain ⟨⟨c, hc⟩, ⟨s, hs⟩⟩ :=
    dispatch_appended_shape handlers cid umid r.tu r.response.content
  exact ⟨h1, ⟨c, by rw [h2, hc]⟩, ⟨s, by rw [h3, hs]⟩⟩

/-- Witness for C1 (amended) at the concrete two-tool-use run. -/

theorem c1_witness :
    firstToolUse roundTwoFix.response.content = some roundTwoFix.tu ∧
    (∃ c, roundTwoFix.appended = [assistantBlocksMsg roundTwoFix.response.content,
      toolResultMsg roundTwoFix.tu.id c]) ∧
    (∃ s, roundTwoFix.ctxMsg = userTextMsg s) :=
  c1_first_tool_use_answered_once handlersFix 0 0 [endTurnResp] twoToolResp [] []
    roundTwoFix (by decide)

/-- C2, counterexample: on a conversation with two persisted prior messages
and an utterance without referential keywords, the list sent to the first
endpoint call is exactly the single raw utterance; the persisted history is
not an order-preserving sub-list of it, so real history is dropped from the
list sent. -/

theorem c2_counterexample :
    (generateFullResponse handlersFix 1 3 [endTurnResp] dbPriorFix "good morning").map
        (fun t => t.initialSent) = some [userTextMsg "good morning"] ∧
    msgSubseq
      ((getMessagesByConversationId (dbPriorFix ++ [⟨"user", "good morning"⟩])).map histToApiMsg)
      [userTextMsg "good morning"] = false := by
  decide

/-- C2 (amended): the first endpoint call of a turn sends exactly one
message (raw or synthetic); real history is not part of that list. Within
the tool loop, every endpoint call's message list starts with the full
persisted history in chronological order — never reordered or dropped —
followed only by appended round messages. -/

theorem c2_history_preserved (handlers : Handlers) (cid umid : Nat)
    (gw : List ModelResponse) (db : List DBRow) (u : String) (t : TurnResult)
    (h : generateFullResponse handlers cid umid gw db u = some t) :
    t.initialSent.length = 1 ∧
    ∀ r ∈ t.rounds, ∃ tail,
      r.sent = ((getMessagesByConversationId (db ++ [⟨"user", u⟩])).map histToApiMsg)
        ++ tail := by
  obtain ⟨r0, rest, hgw, ht⟩ := generateFullResponse_some handlers cid umid gw db u t h
  have hinit : t.initialSent =
      buildInitialMessages (getMessagesByConversationId (db ++ [⟨"user", u⟩])) u := by
    rw [ht]
  have hrounds : t.rounds = (turnLoopResult handlers cid umid r0 rest db u).rounds := by
    rw [ht]
  constructor
  · rw [hinit]; exact buildInitialMessages_length _ u
  · intro r hr
    rw [hrounds] at hr
    simp only [turnLoopResult] at hr
    split at hr
    · obtain ⟨tail, htail⟩ :=
        handleLoop_base_extend handlers cid umid rest r0 _ [] r hr
      refine ⟨tail ++ r.appended ++ [r.ctxMsg], ?_⟩
      simp [RoundRecord.sent, htail, List.append_assoc]
    · simp at hr

/-- Witness for C2 (amended) at a run with one tool round. -/

theorem c2_witness :
    tC2Fix.initialSent.length = 1 ∧
    ∀ r ∈ tC2Fix.rounds, ∃ tail,
      r.sent = ((getMessagesByConversationId
        (dbPriorFix ++ [⟨"user", "good morning"⟩])).map histToApiMsg) ++ tail :=
  c2_history_preserved handlersFix 1 3 [echoToolResp, endTurnResp] dbPriorFix
    "good morning" tC2Fix (by decide)

/-- C3, counterexample: the claim says the loop never returns a final
response whose stop reason is `tool_use`. When a `tool_use`-stopped
response carries no tool-use block the loop breaks and returns that very
response, with oracle responses still unconsumed. -/

theorem c3_counterexample :
    (handleLoop handlersFix 0 0 [endTurnResp] noBlockToolResp [] []).final.stop_reason
        = "tool_use" ∧
    (handleLoop handlersFix 0 0 [endTurnResp] noBlockToolResp [] []).remaining
        = [endTurnResp] := by
  decide

/-- C3 (amended): whenever the loop stops with oracle responses left (so
the stop was a real exit, not an oracle cutoff), either the final stop
reason is not `tool_use`, or the final response is a `tool_use`-stopped
response carrying no tool-use block (the `break` path, which returns it
as the final response). -/

theorem c3_loop_exit (handlers : Handlers) (cid umid : Nat)
    (gw : List ModelResponse) (resp : ModelResponse) (msgs : List Message)
    (audit : List AuditRecord)
    (hrem : (handleLoop handlers cid umid gw resp msgs audit).remaining ≠ []) :
    (handleLoop handlers cid umid gw resp msgs audit).final.stop_reason ≠ "tool_use" ∨
    firstToolUse (handleLoop handlers cid umid gw resp msgs audit).final.content
      = none :=
  handleLoop_exit_shape handlers cid umid gw resp msgs audit hrem

/-- Witness for C3 (amended) at a terminal first response. -/

theorem c3_witness :
    (handleLoop handlersFix 0 0 [endTurnResp] endTurnResp [] []).final.stop_reason
        ≠ "tool_use" ∨
    firstToolUse
      (handleLoop handlersFix 0 0 [endTurnResp] endTurnResp [] []).final.content
        = none :=
  c3_loop_exit handlersFix 0 0 [endTurnResp] endTurnResp [] [] (by decide)

/-- C4 (confirmed): for a final response with a non-tool-use stop reason,
`full_response` is the in-order concatenation of the texts of its text
blocks, and `speakable_chunks` holds exactly one speakable chunk per text
block, in the same order. -/

theorem c4_final_text_concatenation (handlers : Handlers) (cid umid : Nat)
    (gw : List ModelResponse) (db : List DBRow) (u : String) (t : TurnResult)
    (h : generateFullResponse handlers cid umid gw db u = some t)
    (hstop : t.finalResponse.stop_reason ≠ "tool_use") :
    t.fullResponse = concatList (extractTexts t.finalResponse.content) ∧
    t.speakableChunks =
      (extractTexts t.finalResponse.content).map (fun s => ⟨s, true⟩) := by
  obtain ⟨r0, rest, hgw, ht⟩ := generateFullResponse_some handlers cid umid gw db u t h
  have hfull : t.fullResponse =
      (processFinal (turnLoopResult handlers cid umid r0 rest db u).final.content).1 := by
    rw [ht]
  have hchunks : t.speakableChunks =
      (processFinal (turnLoopResult handlers cid umid r0 rest db u).final.content).2 := by
    rw [ht]
  have hfinal : t.finalResponse = (turnLoopResult handlers cid umid r0 rest db u).final := by
    rw [ht]
  rw [hfull, hchunks, hfinal, processFinal_spec]
  exact ⟨rfl, rfl⟩

/-- Witness for C4 at the mixed terminal response. -/

theorem c4_witness :
    tC4Fix.fullResponse = concatList (extractTexts tC4Fix.finalResponse.content) ∧
    tC4Fix.speakableChunks =
      (extractTexts tC4Fix.finalResponse.content).map (fun s => ⟨s, true⟩) :=
  c4_final_text_concatenation handlersFix 1 4 [mixedResp] [] "good morning" tC4Fix
    (by decide) (by decide)

/-- C5, counterexample: the claim says a round whose handler raises still
records the attempted call in the audit log. A run whose single round
dispatches the raising handler `boom` ends with an empty audit log: the
exception path never calls `add_tool_call`. -/

theorem c5_counterexample :
    ((handleLoop handlersFix 0 0 [endTurnResp] boomToolResp [] []).rounds.map
        (fun r => r.tu.name)) = ["boom"] ∧
    (handleLoop handlersFix 0 0 [endTurnResp] boomToolResp [] []).audit = [] := by
  decide

/-- C5 (amended): when the looked-up handler raises, the round appends a
`ToolResult` whose content is `json.dumps({"error": <human-readable
message>})` (it contains the key `error`), the loop continues with another
endpoint call (each round consumes exactly one oracle response), but no
audit record is written for the attempt — the audit log records only
successful calls. -/

theorem c5_handler_error_result (handlers : Handlers) (cid umid : Nat)
    (gw : List ModelResponse) (resp : ModelResponse) (msgs : List Message)
    (audit : List AuditRecord) (r : RoundRecord)
    (hf : String → Except String String) (e : String)
    (hr : r ∈ (handleLoop handlers cid umid gw resp msgs audit).rounds)
    (hl : List.lookup r.tu.name handlers = some hf)
    (he : hf r.tu.input = Except.error e) :
    r.appended = [assistantBlocksMsg r.response.content,
      toolResultMsg r.tu.id
        (jsonError ("Error executing tool " ++ r.tu.name ++ ": " ++ e))] ∧
    strContains (jsonError ("Error executing tool " ++ r.tu.name ++ ": " ++ e))
      "error" = true ∧
    r.auditAdded = [] ∧
    (handleLoop handlers cid umid gw resp msgs audit).rounds.length +
      (handleLoop handlers cid umid gw resp msgs audit).remaining.length
      = gw.length := by
  obtain ⟨h1, h2, h3, h4⟩ :=
    handleLoop_rounds_spec handlers cid umid gw resp msgs audit r hr
  refine ⟨?_, jsonError_contains_error _, ?_,
    handleLoop_calls_count handlers cid umid gw resp msgs audit⟩
  · rw [h2]; simp [dispatch, hl, he]
  · rw [h4]; simp [dispatch, hl, he]

/-- Witness for C5 (amended) at the raising-handler run. -/

theorem c5_witness :
    roundBoomFix.appended = [assistantBlocksMsg roundBoomFix.response.content,
      toolResultMsg roundBoomFix.tu.id
        (jsonError ("Error executing tool " ++ roundBoomFix.tu.name ++ ": " ++ "boom"))] ∧
    strContains
      (jsonError ("Error executing tool " ++ roundBoomFix.tu.name ++ ": " ++ "boom"))
      "error" = true ∧
    roundBoomFix.auditAdded = [] ∧
    (handleLoop handlersFix 0 0 [endTurnResp] boomToolResp [] []).rounds.length +
      (handleLoop handlersFix 0 0 [endTurnResp] boomToolResp [] []).remaining.length
      = 1 :=
  c5_handler_error_result handlersFix 0 0 [endTurnResp] boomToolResp [] []
    roundBoomFix hBoom "boom" (by decide) (by rfl) (by rfl)

/-- C6 (confirmed): when the requested tool name is not in the registry the
round appends a `ToolResult` whose content is the
`json.dumps({"error": "Unknown tool requested: <name>"})` payload — which
contains the offending name — and the loop continues with another endpoint
call (each round consumes exactly one oracle response) instead of
raising. -/

theorem c6_unknown_tool_error_result (handlers : Handlers) (cid umid : Nat)
    (gw : List ModelResponse) (resp : ModelResponse) (msgs : List Message)
    (audit : List AuditRecord) (r : RoundRecord)
    (hr : r ∈ (handleLoop handlers cid umid gw resp msgs audit).rounds)
    (hl : List.lookup r.tu.name handlers = none) :
    r.appended = [assistantBlocksMsg r.response.content,
      toolResultMsg r.tu.id
        (jsonError ("Unknown tool requested: " ++ r.tu.name))] ∧
    strContains (jsonError ("Unknown tool requested: " ++ r.tu.name))
      r.tu.name = true ∧
    (handleLoop handlers cid umid gw resp msgs audit).rounds.length +
      (handleLoop handlers cid umid gw resp msgs audit).remaining.length
      = gw.length := by
  obtain ⟨h1, h2, h3, h4⟩ :=
    handleLoop_rounds_spec handlers cid umid gw resp msgs audit r hr
  refine ⟨?_, jsonError_unknown_contains_name _,
    handleLoop_calls_count handlers cid umid gw resp msgs audit⟩
  rw [h2]; simp [dispatch, hl]

/-- Witness for C6 at the unknown-tool run. -/

theorem c6_witness :
    roundUnkFix.appended = [assistantBlocksMsg roundUnkFix.response.content,
      toolResultMsg roundUnkFix.tu.id
        (jsonError ("Unknown tool requested: " ++ roundUnkFix.tu.name))] ∧
    strContains (jsonError ("Unknown tool requested: " ++ roundUnkFix.tu.name))
      roundUnkFix.tu.name = true ∧
    (handleLoop handlersFix 0 0 [endTurnResp] unknownToolResp [] []).rounds.length +
      (handleLoop handlersFix 0 0 [endTurnResp] unknownToolResp [] []).remaining.length
      = 1 :=
  c6_unknown_tool_error_result handlersFix 0 0 [endTurnResp] unknownToolResp [] []
    roundUnkFix (by decide) (by rfl)

/-- C7, counterexample: the claim says an utterance with fewer than 2 prior
messages gets the "first message" instruction variant. On an empty
conversation the list sent is the raw utterance, which differs from the
first-message variant built by the (never invoked) helper
`_maybe_add_tool_prompt`. -/

theorem c7_counterexample :
    (generateFullResponse handlersFix 1 5 [endTurnResp] [] "good morning").map
        (fun t => t.initialSent) = some [userTextMsg "good morning"] ∧
    [userTextMsg "good morning"]
      ≠ [userTextMsg (firstMessagePrompt "good morning")] := by
  decide

/-- C7 (amended): `generate_full_response` never emits the first-message
instruction variant; that text exists only in the uncalled helper
`_maybe_add_tool_prompt`. With no prior messages the raw utterance is sent;
with exactly one prior message the raw utterance is sent unless it contains
a referential keyword, in which case the follow-up context variant is
sent instead. -/

theorem c7_no_first_message_variant (handlers : Handlers) (cid umid : Nat)
    (gw : List ModelResponse) (db : List DBRow) (u : String) (t : TurnResult)
    (h : generateFullResponse handlers cid umid gw db u = some t)
    (hlen : db.length < 2) :
    (db = [] → t.initialSent = [userTextMsg u]) ∧
    (db.length = 1 →
      (referenceWords.any fun w => strContains (lowerStr u) w) = false →
      t.initialSent = [userTextMsg u]) ∧
    (db.length = 1 →
      (referenceWords.any fun w => strContains (lowerStr u) w) = true →
      t.initialSent = [userTextMsg (followUpPrompt
        (String.intercalate "\n"
          ((lastN 4 (getMessagesByConversationId (db ++ [⟨"user", u⟩]))).map msgLine))
        u)]) := by
  obtain ⟨r0, rest, hgw, ht⟩ := generateFullResponse_some handlers cid umid gw db u t h
  have hinit : t.initialSent =
      buildInitialMessages (getMessagesByConversationId (db ++ [⟨"user", u⟩])) u := by
    rw [ht]
  refine ⟨?_, ?_, ?_⟩
  · intro hnil
    subst hnil
    rw [hinit]
    simp [buildInitialMessages, getMessagesByConversationId, isFollowUp]
  · intro h1 hk
    obtain ⟨d, rfl⟩ := List.length_eq_one.mp h1
    rw [hinit]
    simp [buildInitialMessages, getMessagesByConversationId, isFollowUp, hk]
  · intro h1 hk
    obtain ⟨d, rfl⟩ := List.length_eq_one.mp h1
    rw [hinit]
    simp [buildInitialMessages, getMessagesByConversationId, isFollowUp, hk, lastN,
      msgLine]

/-- Witness for C7 (amended) at the empty conversation. -/

theorem c7_witness :
    (([] : List DBRow) = [] → tC7Fix.initialSent = [userTextMsg "good morning"]) ∧
    (([] : List DBRow).length = 1 →
      (referenceWords.any fun w => strContains (lowerStr "good morning") w) = false →
      tC7Fix.initialSent = [userTextMsg "good morning"]) ∧
    (([] : List DBRow).length = 1 →
      (referenceWords.any fun w => strContains (lowerStr "good morning") w) = true →
      tC7Fix.initialSent = [userTextMsg (followUpPrompt
        (String.intercalate "\n"
          ((lastN 4 (getMessagesByConversationId
            (([] : List DBRow) ++ [⟨"user", "good morning"⟩]))).map msgLine))
        "good morning")]) :=
  c7_no_first_message_variant handlersFix 1 5 [endTurnResp] [] "good morning" tC7Fix
    (by decide) (by decide)

/-- C8 (confirmed): an utterance containing no referential keyword (under
case-insensitive substring matching) with a loaded history of length at
least 2 is sent to the endpoint raw, with no synthetic prefix. -/

theorem c8_no_keyword_sends_raw (handlers : Handlers) (cid umid : Nat)
    (gw : List ModelResponse) (db : List DBRow) (u : String) (t : TurnResult)
    (h : generateFullResponse handlers cid umid gw db u = some t)
    (hk : (referenceWords.any fun w => strContains (lowerStr u) w) = false)
    (hlen : 2 ≤ (getMessagesByConversationId (db ++ [⟨"user", u⟩])).length) :
    t.initialSent = [userTextMsg u] := by
  obtain ⟨r0, rest, hgw, ht⟩ := generateFullResponse_some handlers cid umid gw db u t h
  have hinit : t.initialSent =
      buildInitialMessages (getMessagesByConversationId (db ++ [⟨"user", u⟩])) u := by
    rw [ht]
  rw [hinit]
  simp [buildInitialMessages, isFollowUp, hk]

/-- Witness for C8 at the two-message history. -/

theorem c8_witness :
    tC8Fix.initialSent = [userTextMsg "good morning"] :=
  c8_no_keyword_sends_raw handlersFix 1 6 [endTurnResp] dbPriorFix "good morning"
    tC8Fix (by decide) (by decide) (by decide)

/-- C9, counterexample: the claim says a conversation whose history
resolves to no messages is rejected before any endpoint call with a
validation error. On an empty conversation the run completes normally and
performs an endpoint call; `get_messages_by_conversation_id` on an empty
table returns a synthetic start-of-conversation marker, not an error. -/

theorem c9_counterexample :
    (generateFullResponse handlersFix 1 7 [endTurnResp] [] "good morning").map
        (fun t => t.gatewayCalls) = some 1 ∧
    getMessagesByConversationId [] =
      [⟨"system", "This is the start of a new conversation."⟩] := by
  decide

/-- C9 (amended): an empty history is never rejected and no validation
error exists: the new user message is persisted before the history is
loaded (so the loaded history is the persisted rows, never the marker), a
truly empty table yields the synthetic marker, and the endpoint is always
called at least once whenever it can answer. -/

theorem c9_empty_history_not_rejected (handlers : Handlers) (cid umid : Nat)
    (gw : List ModelResponse) (db : List DBRow) (u : String)
    (hgw : gw ≠ []) :
    (∃ t, generateFullResponse handlers cid umid gw db u = some t ∧
      1 ≤ t.gatewayCalls) ∧
    getMessagesByConversationId (db ++ [⟨"user", u⟩]) =
      (db ++ [(⟨"user", u⟩ : DBRow)]).map (fun r => (⟨r.sender, r.content⟩ : HistMsg)) ∧
    1 ≤ (getMessagesByConversationId db).length := by
  refine ⟨?_, ?_, ?_⟩
  · cases gw with
    | nil => exact absurd rfl hgw
    | cons r0 rest =>
      refine ⟨_, rfl, ?_⟩
      exact Nat.le_add_right 1 _
  · cases db with
    | nil => rfl
    | cons d ds => simp [getMessagesByConversationId]
  · cases db with
    | nil => simp [getMessagesByConversationId]
    | cons d ds => simp [getMessagesByConversationId]

/-- Witness for C9 (amended) at the empty conversation. -/

theorem c9_witness :
    (∃ t, generateFullResponse handlersFix 1 7 [endTurnResp] [] "good morning"
        = some t ∧ 1 ≤ t.gatewayCalls) ∧
    getMessagesByConversationId (([] : List DBRow) ++ [⟨"user", "good morning"⟩]) =
      (([] : List DBRow) ++ [(⟨"user", "good morning"⟩ : DBRow)]).map
        (fun r => (⟨r.sender, r.content⟩ : HistMsg)) ∧
    1 ≤ (getMessagesByConversationId ([] : List DBRow)).length :=
  c9_empty_history_not_rejected handlersFix 1 7 [endTurnResp] [] "good morning"
    (by decide)

/-- C10 (confirmed): a message accepted by the send-message endpoint is
persisted twice as a user row with identical content — once by the endpoint
and once again inside `generate_full_response` — so the stored history
gains exactly two user rows with that content per turn. -/

theorem c10_user_message_persisted_twice (handlers : Handlers) (cid umid : Nat)
    (gw : List ModelResponse) (db : List DBRow) (msg : String) (t : TurnResult)
    (h : sendMessageEndpoint handlers cid umid gw db msg = some t) :
    countRows t.dbAfter "user" msg = countRows db "user" msg + 2 := by
  simp only [sendMessageEndpoint] at h
  generalize hdb2 : db ++ [(⟨"user", msg⟩ : DBRow)] = db2 at h
  obtain ⟨r0, rest, hgw, ht⟩ :=
    generateFullResponse_some handlers cid umid gw db2 msg t h
  have hdb : t.dbAfter = (db2 ++ [⟨"user", msg⟩]) ++
      [⟨"assistant",
        (processFinal (turnLoopResult handlers cid umid r0 rest db2 msg).final.content).1⟩] := by
    rw [ht]
  subst hdb2
  rw [hdb]
  have hu : (fun r : DBRow => r.sender == "user" && r.content == msg)
      ⟨"user", msg⟩ = true := by
    simp
  have ha : ∀ c, (fun r : DBRow => r.sender == "user" && r.content == msg)
      ⟨"assistant", c⟩ = false := by
    intro c
    have hne : (("assistant" : String) == "user") = false := by decide
    simp [hne]
  simp [countRows, List.countP_append, List.countP_cons, hu, ha]

/-- Witness for C10 at the empty conversation. -/

theorem c10_witness :
    countRows tC10Fix.dbAfter "user" "good morning" =
      countRows ([] : List DBRow) "user" "good morning" + 2 :=
  c10_user_message_persisted_twice handlersFix 1 8 [endTurnResp] [] "good morning"
    tC10Fix (by decide)
